import Mathlib

/-!
Shallow embedding of the `option-go` package (a Go generic Option type with a
JSON wire codec) and proofs of its specification claims.

The repository contains several overlapping historical variants of the same
artifact; per the specification, the most defensive variant is canonical where
variants disagree.  The definitions below are translated from the canonical
variants: `src/option.go` (primary section) for the core type, panics and the
wire codec, `src/unnamed/part_000` for the combinators (the only variant that
has them), and `src/json.go` for the structural-fallback `IsZero`.

Modelling conventions:
 - Go's `Option[T]` struct becomes the Lean structure `Opt T` with the same two
   fields `valid` and `value` (the `structs.HostLayout` marker field has no
   behaviour and is dropped).
 - The zero value of a Go type `T` is `(default : T)` via `Inhabited`.
 - Go panics are modelled with the explicit result type `PanicOr`.
 - The external serialization library (`go-json-experiment/json`) is not part
   of this repository; its per-`T` behaviour is abstracted as a `Codec`
   (whole-buffer form) and a `StreamCodec` (token-stream form) parameter, and
   the token stream itself (`jsontext.Decoder` / `jsontext.Encoder`) is
   modelled concretely as a list of tokens.
 - A Go pointer receiver `*Option[T]` (which may be nil) is modelled as
   `Option (Opt T)`, with `none` standing for the nil pointer.
-/

/-- A JSON token in the streaming form, as produced or consumed by
`jsontext.Decoder` / `jsontext.Encoder`.  String and number payloads are
carried so that decoding can be modelled concretely. -/
inductive Token where
  | tNull
  | tFalse
  | tTrue
  | tString (s : String)
  | tNumber (n : Int)
  | tBeginObject
  | tEndObject
  | tBeginArray
  | tEndArray
deriving DecidableEq, Repr

/-- jsontext.Kind: the kind of the next token.  `kInvalid` is the zero Kind,
returned by PeekKind when the next token cannot be read (premature end of
input or structurally invalid input). -/
inductive Kind where
  | kInvalid
  | kNull
  | kFalse
  | kTrue
  | kString
  | kNumber
  | kBeginObject
  | kEndObject
  | kBeginArray
  | kEndArray
deriving DecidableEq, Repr

/-- The kind of a well-formed token. -/
def Token.kind : Token → Kind
  | .tNull => .kNull
  | .tFalse => .kFalse
  | .tTrue => .kTrue
  | .tString _ => .kString
  | .tNumber _ => .kNumber
  | .tBeginObject => .kBeginObject
  | .tEndObject => .kEndObject
  | .tBeginArray => .kBeginArray
  | .tEndArray => .kEndArray

/-- isKindValid from src/option.go lines 169-171: the kind byte is one of
n f t " 0 followed by the four delimiters; everything else (that is, only the
invalid zero Kind) is not valid. -/
def isKindValid (k : Kind) : Bool :=
  k == .kNull || k == .kFalse || k == .kTrue || k == .kString || k == .kNumber ||
    k == .kBeginObject || k == .kEndObject || k == .kBeginArray || k == .kEndArray

/-- Model of jsontext.Decoder: the remaining well-formed tokens of the input,
and the error that reading past them reports (end of input reached
prematurely, or structurally invalid trailing input). -/
structure Decoder where
  tokens : List Token
  errMsg : String
deriving DecidableEq, Repr

/-- Decoder.PeekKind: the kind of the next token without consuming it;
the invalid (zero) Kind when the next token cannot be read. -/
def Decoder.PeekKind (d : Decoder) : Kind :=
  match d.tokens with
  | [] => .kInvalid
  | t :: _ => t.kind

/-- Decoder.ReadToken: consume the next token, or report the stream's error
(consuming nothing) when no token can be read. -/
def Decoder.ReadToken (d : Decoder) : Decoder × Except String Token :=
  match d.tokens with
  | [] => (d, .error d.errMsg)
  | t :: rest => (⟨rest, d.errMsg⟩, .ok t)

/-- Model of jsontext.Encoder: the tokens written so far. -/
structure Encoder where
  written : List Token
deriving DecidableEq, Repr

/-- Encoder.WriteToken: append one token to the output.  The in-memory
encoder model never fails, so the error component is always `none`. -/
def Encoder.WriteToken (enc : Encoder) (t : Token) : Encoder × Option String :=
  (⟨enc.written ++ [t]⟩, none)

/-- Result of a Go computation that may panic instead of returning. -/
inductive PanicOr (A : Type) where
  | ok (val : A)
  | panicked (msg : String)
deriving DecidableEq, Repr

/-- Whole-buffer behaviour of the external JSON library at a given type T
(jsonv1.Marshal / jsonv1.Unmarshal), abstracted as a parameter.
`unmarshal data prior` returns the post-state of the decode target (which Go
passes by pointer and which may retain or partially overwrite `prior` on
error) together with the error, `none` meaning success. -/
structure Codec (T : Type) where
  marshal : T → Except String String
  unmarshal : String → T → T × Option String

/-- Streaming behaviour of the external JSON library at a given type T
(json.MarshalEncode / json.UnmarshalDecode), abstracted as a parameter.
`unmarshalDecode d prior` returns the post-state of the decode target, the
decoder after consuming input, and the error (`none` meaning success). -/
structure StreamCodec (T : Type) where
  marshalEncode : T → Encoder → Encoder × Option String
  unmarshalDecode : Decoder → T → T × Decoder × Option String

/-- Option[T] from src/option.go lines 18-22: a validity flag plus a value
slot.  The struct's zero value is `valid = false`, `value = default`. -/
structure Opt (T : Type) where
  valid : Bool
  value : T
deriving DecidableEq, Repr

/-- Some from src/option.go lines 34-36. -/
def Opt.Some {T : Type} (value : T) : Opt T :=
  ⟨true, value⟩

/-- None from src/option.go lines 39-41: the zero value of the struct. -/
def Opt.None {T : Type} [Inhabited T] : Opt T :=
  ⟨false, default⟩

/-- IsSome from src/option.go lines 44-46. -/
def Opt.IsSome {T : Type} (o : Opt T) : Bool :=
  o.valid

/-- IsNone from src/option.go lines 49-51. -/
def Opt.IsNone {T : Type} (o : Opt T) : Bool :=
  !o.valid

/-- Expect from src/option.go lines 54-60. -/
def Opt.Expect {T : Type} (o : Opt T) (msg : String) : PanicOr T :=
  if o.valid then .ok o.value else .panicked msg

/-- Unwrap from src/option.go lines 63-69 (canonical variant; the historical
variant at src/option.go lines 246-252 uses a differently punctuated
message). -/
def Opt.Unwrap {T : Type} (o : Opt T) : PanicOr T :=
  if o.valid then .ok o.value else .panicked "called Unwrap on a None value"

/-- UnwrapOr from src/option.go lines 72-78. -/
def Opt.UnwrapOr {T : Type} (o : Opt T) (fallback : T) : T :=
  if o.valid then o.value else fallback

/-- UnwrapOrElse from src/option.go lines 81-87. -/
def Opt.UnwrapOrElse {T : Type} (o : Opt T) (fn : Unit → T) : T :=
  if o.valid then o.value else fn ()

/-- UnwrapOrZero from src/option.go lines 90-92: returns the slot
unconditionally. -/
def Opt.UnwrapOrZero {T : Type} (o : Opt T) : T :=
  o.value

/-- IsSomeAnd from src/unnamed/part_000 lines 60-62. -/
def Opt.IsSomeAnd {T : Type} (o : Opt T) (f : T → Bool) : Bool :=
  o.valid && f o.value

/-- IsNoneOr from src/unnamed/part_000 lines 64-66. -/
def Opt.IsNoneOr {T : Type} (o : Opt T) (f : T → Bool) : Bool :=
  !o.valid || f o.value

/-- Filter from src/unnamed/part_000 lines 112-118.  The Go predicate takes a
pointer `*T` used as a read-only view; it is modelled as `T → Bool`. -/
def Opt.Filter {T : Type} [Inhabited T] (o : Opt T) (predicate : T → Bool) : Opt T :=
  if o.valid && predicate o.value then o else ⟨false, default⟩

/-- Inspect from src/unnamed/part_000 lines 120-125.  The Go callback receives
a pointer into the receiver copy and may mutate it, so it is modelled as
`T → T` applied to the value when present; a non-mutating callback is the
identity. -/
def Opt.Inspect {T : Type} (o : Opt T) (f : T → T) : Opt T :=
  if o.valid then ⟨true, f o.value⟩ else o

/-- Map from src/unnamed/part_000 lines 127-133. -/
def Opt.Map {T : Type} [Inhabited T] (o : Opt T) (f : T → T) : Opt T :=
  if o.valid then ⟨true, f o.value⟩ else ⟨false, default⟩

/-- MapOr from src/unnamed/part_000 lines 135-141. -/
def Opt.MapOr {T : Type} (o : Opt T) (fallback : T) (f : T → T) : T :=
  if o.valid then f o.value else fallback

/-- MapOrElse from src/unnamed/part_000 lines 143-149. -/
def Opt.MapOrElse {T : Type} (o : Opt T) (fallback : Unit → T) (f : T → T) : T :=
  if o.valid then f o.value else fallback ()

/-- And from src/unnamed/part_000 lines 151-157. -/
def Opt.And {T : Type} [Inhabited T] (o : Opt T) (other : Opt T) : Opt T :=
  if o.valid then other else ⟨false, default⟩

/-- Or from src/unnamed/part_000 lines 159-165. -/
def Opt.Or {T : Type} (o : Opt T) (other : Opt T) : Opt T :=
  if o.valid then o else other

/-- Xor from src/unnamed/part_000 lines 167-176. -/
def Opt.Xor {T : Type} [Inhabited T] (o : Opt T) (other : Opt T) : Opt T :=
  if o.valid && !other.valid then o
  else if !o.valid && other.valid then other
  else ⟨false, default⟩

/-- AndThen from src/unnamed/part_000 lines 178-184. -/
def Opt.AndThen {T : Type} [Inhabited T] (o : Opt T) (f : T → Opt T) : Opt T :=
  if o.valid then f o.value else ⟨false, default⟩

/-- OrElse from src/unnamed/part_000 lines 186-192. -/
def Opt.OrElse {T : Type} (o : Opt T) (f : Unit → Opt T) : Opt T :=
  if o.valid then o else f ()

/-- MarshalJSON from src/option.go lines 114-120: marshal the contained value
when present (the `noEscape` pointer trick is the identity on the value),
otherwise the four bytes `null`. -/
def Opt.MarshalJSON {T : Type} (c : Codec T) (o : Opt T) : Except String String :=
  if o.valid then c.marshal o.value else .ok "null"

/-- Body of UnmarshalJSON from src/option.go lines 128-137 (the part after the
nil-receiver check): exactly the input `null` resets to the zero option; any
other input is unmarshalled into the slot, the flag being set on success and
the whole option reset to the zero option on error.  Returns the new state of
the receiver together with the returned error. -/
def Opt.UnmarshalJSON {T : Type} [Inhabited T] (c : Codec T) (o : Opt T)
    (data : String) : Opt T × Option String :=
  if data = "null" then (⟨false, default⟩, none)
  else
    match c.unmarshal data o.value with
    | (_, some err) => (⟨false, default⟩, some err)
    | (v, none) => (⟨true, v⟩, none)

/-- UnmarshalJSON from src/option.go lines 124-138 as the method on the
pointer receiver: a nil receiver panics with "option is nil" (lines
125-127), otherwise the body runs on the pointed-to option. -/
def Opt.UnmarshalJSONPtr {T : Type} [Inhabited T] (c : Codec T)
    (h : Option (Opt T)) (data : String) : PanicOr (Opt T × Option String) :=
  match h with
  | none => .panicked "option is nil"
  | some o => .ok (Opt.UnmarshalJSON c o data)

/-- MarshalJSONTo from src/option.go lines 142-148 on the pointer receiver:
when the receiver is non-nil and valid, stream-encode the contained value;
otherwise (nil receiver or absent option) write the null token.  The method
has no panic path. -/
def Opt.MarshalJSONToPtr {T : Type} (c : StreamCodec T) (h : Option (Opt T))
    (enc : Encoder) : PanicOr (Encoder × Option String) :=
  match h with
  | some o =>
      if o.valid then .ok (c.marshalEncode o.value enc)
      else .ok (enc.WriteToken Token.tNull)
  | none => .ok (enc.WriteToken Token.tNull)

/-- Body of UnmarshalJSONFrom from src/option.go lines 156-166 (the part
after the nil-receiver check): when the peeked kind is valid and not null,
stream-decode into the slot, setting the flag on success and resetting the
whole option to the zero option on error; otherwise (null or invalid peeked
kind) read exactly one token, reset the option to the zero option, and return
whatever error that read produced.  Returns the new state of the receiver,
the decoder, and the returned error. -/
def Opt.UnmarshalJSONFrom {T : Type} [Inhabited T] (c : StreamCodec T)
    (o : Opt T) (d : Decoder) : Opt T × Decoder × Option String :=
  let kind := d.PeekKind
  if isKindValid kind && !(kind == Kind.kNull) then
    match c.unmarshalDecode d o.value with
    | (v, d2, none) => (⟨true, v⟩, d2, none)
    | (_, d2, some err) => (⟨false, default⟩, d2, some err)
  else
    match d.ReadToken with
    | (d2, .ok _) => (⟨false, default⟩, d2, none)
    | (d2, .error err) => (⟨false, default⟩, d2, some err)

/-- UnmarshalJSONFrom from src/option.go lines 152-167 as the method on the
pointer receiver: a nil receiver panics with "option is nil" (lines
153-155), otherwise the body runs on the pointed-to option. -/
def Opt.UnmarshalJSONFromPtr {T : Type} [Inhabited T] (c : StreamCodec T)
    (h : Option (Opt T)) (d : Decoder) :
    PanicOr (Opt T × Decoder × Option String) :=
  match h with
  | none => .panicked "option is nil"
  | some o => .ok (Opt.UnmarshalJSONFrom c o d)

/-- IsZero from src/json.go lines 42-51 (the variant with the structural
fallback, which is the behaviour the specification adopts): an absent option
is zero; a present option delegates to the contained type's own
`IsZero() bool` capability when it has one (`cap = some f` models a `T` whose
values implement the interface, `cap = none` a `T` with no such method), and
otherwise falls back to `reflect.ValueOf(o.value).IsZero()`, the structural
comparison with `T`'s zero value. -/
def Opt.IsZero {T : Type} [Inhabited T] [DecidableEq T]
    (cap : Option (T → Bool)) (o : Opt T) : Bool :=
  if o.valid then
    match cap with
    | some f => f o.value
    | none => decide (o.value = default)
  else true

/-- IsZero from src/option.go lines 175-183: the historical variant without
the structural fallback; a present value whose type has no `IsZero() bool`
capability reports false. -/
def Opt.IsZeroNoFallback {T : Type} (cap : Option (T → Bool)) (o : Opt T) :
    Bool :=
  if !o.valid then true
  else
    match cap with
    | some f => f o.value
    | none => false

/-- OptInv: the representation invariant of the data model — when the
validity flag is false the slot holds T's zero value. -/
abbrev OptInv {T : Type} [Inhabited T] (o : Opt T) : Prop :=
  o.valid = false → o.value = default

/-- A concrete whole-buffer codec at T = Bool, standing in for the external
JSON library's treatment of Go's bool, used to instantiate the
codec-parametric theorems at concrete inputs. -/
def boolCodec : Codec Bool where
  marshal v := .ok (if v then "true" else "false")
  unmarshal s prior :=
    if s = "true" then (true, none)
    else if s = "false" then (false, none)
    else (prior, some "cannot unmarshal into bool")

/-- A concrete streaming codec at T = Bool, standing in for the external JSON
library's treatment of Go's bool, used to instantiate the codec-parametric
theorems at concrete inputs. -/
def boolStreamCodec : StreamCodec Bool where
  marshalEncode v enc :=
    enc.WriteToken (if v then Token.tTrue else Token.tFalse)
  unmarshalDecode d prior :=
    match d.tokens with
    | Token.tTrue :: rest => (true, ⟨rest, d.errMsg⟩, none)
    | Token.tFalse :: rest => (false, ⟨rest, d.errMsg⟩, none)
    | _ :: rest => (prior, ⟨rest, d.errMsg⟩, some "cannot unmarshal into bool")
    | [] => (prior, d, some d.errMsg)

/-- Claim C5: for every type T, whole-buffer encoding of `None<T>()` produces
exactly the four-byte output "null" with no error, and whole-buffer decoding
of the exact input "null" succeeds (from any prior state) and leaves the
option equal to `None<T>()`. -/
theorem c5_null_round {T : Type} [Inhabited T] (c : Codec T) (o : Opt T) :
    Opt.MarshalJSON c (Opt.None : Opt T) = .ok "null" ∧
    "null".length = 4 ∧
    Opt.UnmarshalJSON c o "null" = (Opt.None, none) := by
  refine ⟨?_, rfl, ?_⟩
  · simp [Opt.MarshalJSON, Opt.None]
  · simp [Opt.UnmarshalJSON, Opt.None]

/-- Claim C7: `Some(v).Unwrap()` returns v without panicking, and `Unwrap`
invoked on any Absent option panics with exactly the message
"called Unwrap on a None value". -/
theorem c7_unwrap {T : Type} (v : T) :
    (Opt.Some v).Unwrap = .ok v ∧
    (∀ o : Opt T, o.valid = false →
      o.Unwrap = .panicked "called Unwrap on a None value") := by
  constructor
  · simp [Opt.Unwrap, Opt.Some]
  · intro o h
    simp [Opt.Unwrap, h]

/-- Witness for C7 at T = Int: unwrapping `Some 5` yields 5, and unwrapping
the Absent option panics with the fixed message. -/
theorem c7_unwrap_witness :
    (Opt.Some (5 : Int)).Unwrap = .ok 5 ∧
    (Opt.None : Opt Int).valid = false ∧
    (Opt.None : Opt Int).Unwrap = .panicked "called Unwrap on a None value" :=
  ⟨(c7_unwrap (5 : Int)).1, by decide,
    (c7_unwrap (5 : Int)).2 Opt.None (by decide)⟩

/-- Claim C8: both decode entry points, invoked on a nil receiver, panic with
the precise diagnostic "option is nil" rather than failing with an
undiagnosed fault. -/
theorem c8_nil_receiver_panics {T : Type} [Inhabited T] (c : Codec T)
    (sc : StreamCodec T) (data : String) (d : Decoder) :
    Opt.UnmarshalJSONPtr c (none : Option (Opt T)) data =
      .panicked "option is nil" ∧
    Opt.UnmarshalJSONFromPtr sc (none : Option (Opt T)) d =
      .panicked "option is nil" :=
  ⟨rfl, rfl⟩

/-- Claim C9: the streaming encode invoked on a nil receiver does not abort:
it writes the null token, exactly as encoding an Absent option does, and
returns the encoder's result. -/
theorem c9_marshal_to_nil {T : Type} [Inhabited T] (sc : StreamCodec T)
    (enc : Encoder) :
    Opt.MarshalJSONToPtr sc (none : Option (Opt T)) enc =
      .ok (enc.WriteToken Token.tNull) ∧
    Opt.MarshalJSONToPtr sc (none : Option (Opt T)) enc =
      Opt.MarshalJSONToPtr sc (some (Opt.None : Opt T)) enc := by
  constructor
  · rfl
  · simp [Opt.MarshalJSONToPtr, Opt.None]

/-- Claim C10: `None<T>()` returns exactly the zero value of the Option
struct (validity flag false, slot at T's default), so a freshly
zero-initialized option is observationally identical to the result of
`None<T>()`. -/
theorem c10_none_is_zero_value {T : Type} [Inhabited T] :
    (Opt.None : Opt T) = ⟨false, default⟩ ∧
    (Opt.None : Opt T).IsSome = false ∧
    (Opt.None : Opt T).IsNone = true ∧
    (Opt.None : Opt T).UnwrapOrZero = (default : T) :=
  ⟨rfl, rfl, rfl, rfl⟩

/-- Claim C4: IsZero is true on every Absent option; on a Present option it
delegates to the contained value's own IsZero capability when the type has
one, and otherwise falls back to structural comparison with T's default; in
particular at T = int the spec's three examples hold. -/
theorem c4_iszero {T : Type} [Inhabited T] [DecidableEq T]
    (cap : Option (T → Bool)) (f : T → Bool) (o : Opt T) :
    (o.valid = false → Opt.IsZero cap o = true) ∧
    (o.valid = true → Opt.IsZero (some f) o = f o.value) ∧
    (o.valid = true →
      Opt.IsZero (none : Option (T → Bool)) o = decide (o.value = default)) ∧
    Opt.IsZero (none : Option (Int → Bool)) (Opt.None : Opt Int) = true ∧
    Opt.IsZero (none : Option (Int → Bool)) (Opt.Some (0 : Int)) = true ∧
    Opt.IsZero (none : Option (Int → Bool)) (Opt.Some (1 : Int)) = false := by
  refine ⟨?_, ?_, ?_, by decide, by decide, by decide⟩
  · intro h
    simp [Opt.IsZero, h]
  · intro h
    simp [Opt.IsZero, h]
  · intro h
    simp [Opt.IsZero, h]

/-- Witness for C4: the capability and fallback branches evaluated at
concrete options over Int. -/
theorem c4_iszero_witness :
    ((Opt.None : Opt Int).valid = false ∧
      Opt.IsZero (some (fun v : Int => decide (v = 9))) (Opt.None : Opt Int) =
        true) ∧
    ((Opt.Some (9 : Int)).valid = true ∧
      Opt.IsZero (some (fun v : Int => decide (v = 9))) (Opt.Some (9 : Int)) =
        (fun v : Int => decide (v = 9)) (Opt.Some (9 : Int)).value) ∧
    ((Opt.Some (7 : Int)).valid = true ∧
      Opt.IsZero (none : Option (Int → Bool)) (Opt.Some (7 : Int)) =
        decide ((Opt.Some (7 : Int)).value = (default : Int))) :=
  ⟨⟨by decide,
      (c4_iszero (some (fun v : Int => decide (v = 9)))
        (fun v : Int => decide (v = 9)) (Opt.None : Opt Int)).1 (by decide)⟩,
    ⟨by decide,
      (c4_iszero (some (fun v : Int => decide (v = 9)))
        (fun v : Int => decide (v = 9)) (Opt.Some (9 : Int))).2.1 (by decide)⟩,
    ⟨by decide,
      (c4_iszero (none : Option (Int → Bool))
        (fun v : Int => decide (v = 9)) (Opt.Some (7 : Int))).2.2.1
        (by decide)⟩⟩

/-- Claim C6: for every value v whose encoding is stable — its marshalled
form s is not the literal "null" and unmarshalling s into a fresh default
slot reproduces v — encoding `Some v` yields s and decoding s into a fresh
option yields exactly `Some v` with no error. -/
theorem c6_roundtrip {T : Type} [Inhabited T] (c : Codec T) (v : T)
    (s : String) (h1 : c.marshal v = .ok s) (h2 : s ≠ "null")
    (h3 : c.unmarshal s (default : T) = (v, none)) :
    Opt.MarshalJSON c (Opt.Some v) = .ok s ∧
    Opt.UnmarshalJSON c (Opt.None : Opt T) s = (Opt.Some v, none) := by
  constructor
  · simpa [Opt.MarshalJSON, Opt.Some] using h1
  · have hval : (Opt.None : Opt T).value = (default : T) := rfl
    simp only [Opt.UnmarshalJSON, if_neg h2, hval, h3]
    rfl

/-- Claim C1: streaming decode policy.  When the peeked kind is null or is
not a valid kind, exactly one ReadToken call is made (consuming the one
pending token when there is one), the option is reset to Absent, and the
error of that read — none on a successful consume — is returned.  Otherwise
a value of T is stream-decoded: on success the option becomes Present with
that value, on failure it is reset to Absent and the decode error is
returned. -/
theorem c1_streaming_decode {T : Type} [Inhabited T] (c : StreamCodec T)
    (o : Opt T) (d : Decoder) :
    ((d.PeekKind = Kind.kNull ∨ isKindValid d.PeekKind = false) →
      (∀ t d2, d.ReadToken = (d2, Except.ok t) →
        d2.tokens = d.tokens.tail ∧
        Opt.UnmarshalJSONFrom c o d = (⟨false, default⟩, d2, none)) ∧
      (∀ e d2, d.ReadToken = (d2, Except.error e) →
        Opt.UnmarshalJSONFrom c o d = (⟨false, default⟩, d2, some e))) ∧
    (isKindValid d.PeekKind = true → d.PeekKind ≠ Kind.kNull →
      (∀ v d2, c.unmarshalDecode d o.value = (v, d2, none) →
        Opt.UnmarshalJSONFrom c o d = (Opt.Some v, d2, none)) ∧
      (∀ v d2 e, c.unmarshalDecode d o.value = (v, d2, some e) →
        Opt.UnmarshalJSONFrom c o d = (⟨false, default⟩, d2, some e))) := by
  constructor
  · intro h
    have hcond :
        (isKindValid d.PeekKind && !(d.PeekKind == Kind.kNull)) = false := by
      rcases h with h | h
      · simp [h]
      · simp [h]
    constructor
    · intro t d2 hr
      cases htok : d.tokens with
      | nil => simp [Decoder.ReadToken, htok] at hr
      | cons hd tl =>
        simp only [Decoder.ReadToken, htok] at hr
        obtain ⟨h1, h2⟩ := Prod.mk.injEq .. ▸ hr
        constructor
        · rw [← h1]
          simp [htok]
        · simp [Opt.UnmarshalJSONFrom, hcond, Decoder.ReadToken, htok, ← h1]
    · intro e d2 hr
      simp [Opt.UnmarshalJSONFrom, hcond, hr]
  · intro hk hnn
    have hcond :
        (isKindValid d.PeekKind && !(d.PeekKind == Kind.kNull)) = true := by
      simp [hk, hnn]
    constructor
    · intro v d2 hq
      simp [Opt.UnmarshalJSONFrom, hcond, hq, Opt.Some]
    · intro v d2 e hq
      simp [Opt.UnmarshalJSONFrom, hcond, hq]

/-- Witness for C1 at T = Bool: a pending null token is consumed and yields
Absent with no error; an empty (invalid) stream yields Absent and the
stream's error; a pending true token decodes to `Some true`. -/
theorem c1_streaming_decode_witness :
    ((⟨[Token.tNull], "EOF"⟩ : Decoder).PeekKind = Kind.kNull ∧
      Opt.UnmarshalJSONFrom boolStreamCodec (Opt.Some true)
        ⟨[Token.tNull], "EOF"⟩ =
        (⟨false, default⟩, (⟨[], "EOF"⟩ : Decoder), none)) ∧
    (isKindValid (⟨[], "garbage"⟩ : Decoder).PeekKind = false ∧
      Opt.UnmarshalJSONFrom boolStreamCodec (Opt.Some true)
        ⟨[], "garbage"⟩ =
        (⟨false, default⟩, (⟨[], "garbage"⟩ : Decoder), some "garbage")) ∧
    Opt.UnmarshalJSONFrom boolStreamCodec (Opt.None : Opt Bool)
      ⟨[Token.tTrue], "EOF"⟩ =
      (Opt.Some true, (⟨[], "EOF"⟩ : Decoder), none) :=
  ⟨⟨by decide,
      (((c1_streaming_decode boolStreamCodec (Opt.Some true)
          ⟨[Token.tNull], "EOF"⟩).1 (Or.inl (by decide))).1 Token.tNull
        ⟨[], "EOF"⟩ rfl).2⟩,
    ⟨by decide,
      ((c1_streaming_decode boolStreamCodec (Opt.Some true)
          ⟨[], "garbage"⟩).1 (Or.inr (by decide))).2 "garbage"
        ⟨[], "garbage"⟩ rfl⟩,
    ((c1_streaming_decode boolStreamCodec (Opt.None : Opt Bool)
        ⟨[Token.tTrue], "EOF"⟩).2 (by decide) (by decide)).1 true
      ⟨[], "EOF"⟩ rfl⟩

/-- Claim C2: on any input that fails to parse as T, both decode entry
points return the parse error as a normal error value and leave the option
exactly Absent — validity flag false and slot at T's default — regardless of
the option's prior state. -/
theorem c2_parse_error_leaves_absent {T : Type} [Inhabited T] (c : Codec T)
    (sc : StreamCodec T) (o o2 : Opt T) (data : String) (d : Decoder)
    (e e2 : String) :
    (data ≠ "null" → (c.unmarshal data o.value).2 = some e →
      Opt.UnmarshalJSON c o data = (⟨false, default⟩, some e)) ∧
    (isKindValid d.PeekKind = true → d.PeekKind ≠ Kind.kNull →
      (sc.unmarshalDecode d o2.value).2.2 = some e2 →
      (Opt.UnmarshalJSONFrom sc o2 d).1 = ⟨false, default⟩ ∧
      (Opt.UnmarshalJSONFrom sc o2 d).2.2 = some e2) := by
  constructor
  · intro hn hu
    rcases hq : c.unmarshal data o.value with ⟨v2, err⟩
    have herr : err = some e := by rw [hq] at hu; exact hu
    subst herr
    simp [Opt.UnmarshalJSON, hn, hq]
  · intro hk hnn hu
    have hcond :
        (isKindValid d.PeekKind && !(d.PeekKind == Kind.kNull)) = true := by
      simp [hk, hnn]
    rcases hq : sc.unmarshalDecode d o2.value with ⟨v2, d2, err⟩
    have herr : err = some e2 := by rw [hq] at hu; exact hu
    subst herr
    constructor
    · simp [Opt.UnmarshalJSONFrom, hcond, hq]
    · simp [Opt.UnmarshalJSONFrom, hcond, hq]

/-- Witness for C2 at T = Bool: decoding the malformed buffer "xyz" and the
non-bool token stream into a previously Present option returns the parse
error and leaves the option Absent with the slot at Bool's default. -/
theorem c2_parse_error_witness :
    ("xyz" ≠ "null" ∧
      (boolCodec.unmarshal "xyz" (Opt.Some true).value).2 =
        some "cannot unmarshal into bool" ∧
      Opt.UnmarshalJSON boolCodec (Opt.Some true) "xyz" =
        (⟨false, default⟩, some "cannot unmarshal into bool")) ∧
    (isKindValid (⟨[Token.tString "x"], "EOF"⟩ : Decoder).PeekKind = true ∧
      (⟨[Token.tString "x"], "EOF"⟩ : Decoder).PeekKind ≠ Kind.kNull ∧
      (boolStreamCodec.unmarshalDecode ⟨[Token.tString "x"], "EOF"⟩
        (Opt.Some true).value).2.2 = some "cannot unmarshal into bool" ∧
      (Opt.UnmarshalJSONFrom boolStreamCodec (Opt.Some true)
        ⟨[Token.tString "x"], "EOF"⟩).1 = ⟨false, default⟩ ∧
      (Opt.UnmarshalJSONFrom boolStreamCodec (Opt.Some true)
        ⟨[Token.tString "x"], "EOF"⟩).2.2 =
        some "cannot unmarshal into bool") :=
  ⟨⟨by decide, rfl,
      (c2_parse_error_leaves_absent boolCodec boolStreamCodec (Opt.Some true)
        (Opt.Some true) "xyz" ⟨[Token.tString "x"], "EOF"⟩
        "cannot unmarshal into bool" "cannot unmarshal into bool").1
        (by decide) rfl⟩,
    ⟨by decide, by decide, rfl,
      ((c2_parse_error_leaves_absent boolCodec boolStreamCodec
        (Opt.Some true) (Opt.Some true) "xyz" ⟨[Token.tString "x"], "EOF"⟩
        "cannot unmarshal into bool" "cannot unmarshal into bool").2
        (by decide) (by decide) rfl).1,
      ((c2_parse_error_leaves_absent boolCodec boolStreamCodec
        (Opt.Some true) (Opt.Some true) "xyz" ⟨[Token.tString "x"], "EOF"⟩
        "cannot unmarshal into bool" "cannot unmarshal into bool").2
        (by decide) (by decide) rfl).2⟩⟩

/-- Claim C3: the representation invariant — validity flag false implies the
slot holds T's default — holds for both constructors and is preserved by
every option-producing operation of the API, including the state left by
both decode entry points on all success and error paths. -/
theorem c3_invariant {T : Type} [Inhabited T] (v : T) (o other : Opt T)
    (p : T → Bool) (f g : T → T) (fo : T → Opt T) (fof : Unit → Opt T)
    (c : Codec T) (sc : StreamCodec T) (data : String) (d : Decoder) :
    OptInv (Opt.Some v) ∧
    OptInv (Opt.None : Opt T) ∧
    OptInv (o.Filter p) ∧
    (OptInv o → OptInv (o.Inspect f)) ∧
    OptInv (o.Map g) ∧
    (OptInv other → OptInv (o.And other)) ∧
    (OptInv o → OptInv other → OptInv (o.Or other)) ∧
    OptInv (o.Xor other) ∧
    ((∀ x, OptInv (fo x)) → OptInv (o.AndThen fo)) ∧
    (OptInv o → OptInv (fof ()) → OptInv (o.OrElse fof)) ∧
    OptInv (Opt.UnmarshalJSON c o data).1 ∧
    OptInv (Opt.UnmarshalJSONFrom sc o d).1 := by
  refine ⟨?_, ?_, ?_, ?_, ?_, ?_, ?_, ?_, ?_, ?_, ?_, ?_⟩
  · simp [OptInv, Opt.Some]
  · simp [OptInv, Opt.None]
  · simp only [OptInv, Opt.Filter]
    split
    · next hc =>
      intro hval
      rw [hval] at hc
      simp at hc
    · intro _
      rfl
  · intro ho
    simp only [OptInv, Opt.Inspect]
    split
    · simp
    · exact ho
  · simp only [OptInv, Opt.Map]
    split
    · simp
    · intro _
      rfl
  · intro hother
    simp only [Opt.And]
    split
    · exact hother
    · intro _
      rfl
  · intro ho hother
    simp only [Opt.Or]
    split
    · exact ho
    · exact hother
  · simp only [OptInv, Opt.Xor]
    split
    · next hc =>
      intro hval
      rw [hval] at hc
      simp at hc
    · split
      · next hc =>
        intro hval
        rw [hval] at hc
        simp at hc
      · intro _
        rfl
  · intro hfo
    simp only [Opt.AndThen]
    split
    · exact hfo o.value
    · intro _
      rfl
  · intro ho hf
    simp only [Opt.OrElse]
    split
    · exact ho
    · exact hf
  · simp only [Opt.UnmarshalJSON]
    split
    · intro _
      rfl
    · rcases hq : c.unmarshal data o.value with ⟨v2, err⟩
      cases err <;> simp [OptInv]
  · simp only [Opt.UnmarshalJSONFrom]
    split
    · rcases hq : sc.unmarshalDecode d o.value with ⟨v2, d2, err⟩
      cases err <;> simp [OptInv]
    · rcases hq : d.ReadToken with ⟨d2, r⟩
      cases r <;> simp [OptInv]

/-- Witness for C3 at T = Bool: the invariant evaluated on concrete results
of the constructors, combinators and both decode entry points. -/
theorem c3_invariant_witness :
    OptInv (Opt.Some true) ∧
    OptInv ((Opt.Some true).Inspect (fun x => x)) ∧
    OptInv ((Opt.Some true).And (Opt.None : Opt Bool)) ∧
    OptInv ((Opt.Some true).Or (Opt.None : Opt Bool)) ∧
    OptInv ((Opt.Some true).AndThen (fun _ => (Opt.None : Opt Bool))) ∧
    OptInv ((Opt.Some true).OrElse (fun _ => Opt.Some false)) ∧
    OptInv ((Opt.UnmarshalJSON boolCodec (Opt.Some true) "xyz").1) ∧
    OptInv ((Opt.UnmarshalJSONFrom boolStreamCodec (Opt.Some true)
      ⟨[], "EOF"⟩).1) := by
  have h := c3_invariant true (Opt.Some true) (Opt.None : Opt Bool)
    (fun _ => true) (fun x => x) (fun x => x)
    (fun _ => (Opt.None : Opt Bool)) (fun _ => Opt.Some false)
    boolCodec boolStreamCodec "xyz" ⟨[], "EOF"⟩
  exact ⟨h.1, h.2.2.2.1 (by decide), h.2.2.2.2.2.1 (by decide),
    h.2.2.2.2.2.2.1 (by decide) (by decide),
    h.2.2.2.2.2.2.2.2.1 (fun _ => by decide),
    h.2.2.2.2.2.2.2.2.2.1 (by decide) (by decide),
    h.2.2.2.2.2.2.2.2.2.2.1, h.2.2.2.2.2.2.2.2.2.2.2⟩

/-- Witness for C6 at T = Bool, v = true: the bool codec marshals `Some true`
to "true" and unmarshals it back to `Some true`. -/
theorem c6_roundtrip_witness :
    boolCodec.marshal true = .ok "true" ∧
    "true" ≠ "null" ∧
    boolCodec.unmarshal "true" (default : Bool) = (true, none) ∧
    Opt.MarshalJSON boolCodec (Opt.Some true) = .ok "true" ∧
    Opt.UnmarshalJSON boolCodec (Opt.None : Opt Bool) "true" =
      (Opt.Some true, none) :=
  ⟨rfl, by decide, rfl,
    (c6_roundtrip boolCodec true "true" rfl (by decide) rfl).1,
    (c6_roundtrip boolCodec true "true" rfl (by decide) rfl).2⟩
